import Mathlib

/-!
Verification of the ComposeUI declarative widget configuration pipeline.

This development embeds the core data structures and operations of the
repository in Lean 4 and proves (or refutes) the specified properties:

* `HashTable` — the fixed-capacity open-addressing hash table of
  `src/utils/HashTable.h` (linear probing with tombstones), embedded with
  capacity given by the length of the slot list.
* `Graticules` — the integer grid-geometry engine of
  `src/ui/widgets/Graticules.cpp`.
* `ScreenM` / `WidgetBuilderM` — the two state machines of
  `src/ui/lvgl/Screen.h` and `src/ui/builder/WidgetBuilder.cpp`,
  restricted to their state-relevant behaviour.

Machine integers are modelled as `Nat` (keys, indices) and `Int`
(`int16_t`/`int8_t` coordinate arithmetic — in every verified scenario the
values stay far inside the representable range, so plain integer
arithmetic coincides with the C++ semantics); C truncating division is
`Int.tdiv`, and the one place the code converts `int8_t` to `uint8_t`
(`Graticules::isValidIndex`) is modelled by `% 256` (`Int.emod`).
-/

set_option autoImplicit false

namespace HashTable

/-- One slot of the fixed-capacity table, mirroring `HashTable::Entry`:
`Key key{}; Value value{}; bool occupied = false; bool deleted = false;`.
Keys are modelled as `Nat` (the C++ key is converted with
`static_cast<size_t>` before hashing); `Key{}` default-constructs to `0`. -/
structure HEntry (V : Type) where
  key : Nat := 0
  value : V
  occupied : Bool := false
  deleted : Bool := false
deriving DecidableEq, Repr

instance {V : Type} [Inhabited V] : Inhabited (HEntry V) :=
  ⟨{ key := 0, value := default, occupied := false, deleted := false }⟩

/-- The table state: the fixed array `std::array<Entry, Capacity> table`,
modelled as a list whose length is the capacity. -/
abbrev HTable (V : Type) := List (HEntry V)

/-- The default-constructed table: every slot default-constructed. -/
def emptyTable (V : Type) [Inhabited V] (capacity : Nat) : HTable V :=
  List.replicate capacity default

/-- Read slot `j` of the table (total; all real accesses are in bounds). -/
def slotAt {V : Type} [Inhabited V] (t : HTable V) (j : Nat) : HEntry V :=
  t.getD j default

/-- `hashFunction` plus linear-probe offset: `(index + i) % Capacity`
with `index = key % Capacity`. -/
def probeIdx (capacity k i : Nat) : Nat :=
  (k % capacity + i) % capacity

/-- First qualifying probe offset: scans offsets `start, start+1, ...`
for `fuel` steps and returns the first offset satisfying `p`.  This is the
shape of the `for (size_t i = 0; i < Capacity; ++i)` probe loops. -/
def firstQual (p : Nat → Bool) : Nat → Nat → Option Nat
  | _, 0 => none
  | i, fuel + 1 => if p i then some i else firstQual p (i + 1) fuel

/-- The slot test of `HashTable::insert`:
`!table[probe].occupied || table[probe].deleted || table[probe].key == key`. -/
def insertSlotOK {V : Type} [Inhabited V] (t : HTable V) (k j : Nat) : Bool :=
  !(slotAt t j).occupied || (slotAt t j).deleted || (slotAt t j).key == k

/-- `HashTable::insert`: linear-probe for the first empty, tombstoned or
matching slot; write the pair there and mark it occupied/non-deleted;
return `false` leaving the table unchanged if the probe sequence is
exhausted. -/
def insert {V : Type} [Inhabited V] (t : HTable V) (k : Nat) (v : V) :
    Bool × HTable V :=
  match firstQual (fun i => insertSlotOK t k (probeIdx t.length k i)) 0 t.length with
  | some i =>
    (true, t.set (probeIdx t.length k i)
      { key := k, value := v, occupied := true, deleted := false })
  | none => (false, t)

/-- The slot test of `HashTable::find` and `HashTable::remove`:
`table[probe].occupied && !table[probe].deleted && table[probe].key == key`. -/
def findSlotOK {V : Type} (e : HEntry V) (k : Nat) : Bool :=
  e.occupied && !e.deleted && e.key == k

/-- The probe loop of `HashTable::find`: scans the entire probe sequence
(`fuel` remaining offsets, starting at offset `i`) and returns the value
of the first occupied, non-deleted, matching slot. -/
def findGo {V : Type} [Inhabited V] (t : HTable V) (k : Nat) :
    Nat → Nat → Option V
  | _, 0 => none
  | i, fuel + 1 =>
    let e := slotAt t (probeIdx t.length k i)
    if findSlotOK e k then some e.value else findGo t k (i + 1) fuel

/-- `HashTable::find` (`nullptr` is modelled as `none`). -/
def find {V : Type} [Inhabited V] (t : HTable V) (k : Nat) : Option V :=
  findGo t k 0 t.length

/-- Modelled from the spec (for the refinement claim): the probe loop of
the specified `find`, which "probes the same sequence; stops and reports
absent as soon as it reaches a slot that is empty (not merely
tombstoned)".  Tombstoned slots do not stop the probe; a never-occupied
slot does. -/
def specFindGo {V : Type} [Inhabited V] (t : HTable V) (k : Nat) :
    Nat → Nat → Option V
  | _, 0 => none
  | i, fuel + 1 =>
    let e := slotAt t (probeIdx t.length k i)
    if !e.occupied then none
    else if findSlotOK e k then some e.value
    else specFindGo t k (i + 1) fuel

/-- Modelled from the spec: the specified `find`, stopping at the first
empty (never occupied) slot. -/
def specFind {V : Type} [Inhabited V] (t : HTable V) (k : Nat) : Option V :=
  specFindGo t k 0 t.length

/-- `HashTable::remove`: on the first occupied, non-deleted, matching slot,
set the tombstone flag and reset key/value to their defaults. -/
def remove {V : Type} [Inhabited V] (t : HTable V) (k : Nat) :
    Bool × HTable V :=
  match firstQual (fun i => findSlotOK (slotAt t (probeIdx t.length k i)) k) 0 t.length with
  | some i =>
    let j := probeIdx t.length k i
    (true, t.set j { slotAt t j with deleted := true, value := default, key := 0 })
  | none => (false, t)

/-- `HashTable::getSize`: number of occupied, non-tombstoned slots. -/
def getSize {V : Type} (t : HTable V) : Nat :=
  (t.filter (fun e => e.occupied && !e.deleted)).length

/-- Number of occupied, non-tombstoned slots holding key `k`. -/
def countKey {V : Type} (t : HTable V) (k : Nat) : Nat :=
  (t.filter (fun e => e.occupied && !e.deleted && e.key == k)).length

/-- A single table operation, for describing operation sequences. -/
inductive Op (V : Type) where
  | ins (k : Nat) (v : V)
  | rem (k : Nat)
deriving DecidableEq, Repr

/-- Apply one operation, keeping only the resulting table state. -/
def applyOp {V : Type} [Inhabited V] (t : HTable V) : Op V → HTable V
  | .ins k v => (insert t k v).2
  | .rem k => (remove t k).2

/-- Run a sequence of operations from the empty table of the given capacity. -/
def runOps (V : Type) [Inhabited V] (capacity : Nat) (ops : List (Op V)) :
    HTable V :=
  ops.foldl applyOp (emptyTable V capacity)

/-- The operation sequence exhibiting the tombstone-reinsertion defect at
capacity 10 (the capacity `MAX_WIDGETS` used by the repository): keys `0`
and `10` collide at bucket `0`. -/
def buggyOps : List (Op Nat) :=
  [Op.ins 0 10, Op.ins 10 20, Op.rem 0, Op.ins 10 30]

/-- The ten distinct-key inserts filling the capacity-10 table. -/
def fullOps : List (Op Nat) := (List.range 10).map (fun k => Op.ins k (100 + k))

/-- The table obtained by inserting ten distinct keys into the empty
capacity-10 table. -/
def fullTable : HTable Nat := runOps Nat 10 fullOps

/-- Probe-chain invariant: whenever key `k` matches at probe offset `d`,
every earlier slot of its probe sequence is occupied.  This is what makes
the full-scan `find` of the code agree with the stop-at-empty `find` of
the spec. -/
def Inv {V : Type} [Inhabited V] (t : HTable V) : Prop :=
  ∀ k d, d < t.length →
    findSlotOK (slotAt t (probeIdx t.length k d)) k = true →
    ∀ d2, d2 < d → (slotAt t (probeIdx t.length k d2)).occupied = true

end HashTable

/-- `Utils::Widget::Boundary`: inclusive pixel rectangle. -/
structure Boundary where
  x1 : Int := 0
  y1 : Int := 0
  x2 : Int := 0
  y2 : Int := 0
deriving DecidableEq, Repr

/-- `Graticules::PrivateLineSegment`. -/
structure PrivateLineSegment where
  x1 : Int := 0
  y1 : Int := 0
  x2 : Int := 0
  y2 : Int := 0
deriving DecidableEq, Repr

/-- `Graticules::PrivateBoundary`. -/
structure PrivateBoundary where
  x1 : Int := 0
  y1 : Int := 0
  x2 : Int := 0
  y2 : Int := 0
deriving DecidableEq, Repr

/-- `GraticulesLineSegment`: the public value-type copy of a grid line. -/
structure GraticulesLineSegment where
  x1 : Int := 0
  y1 : Int := 0
  x2 : Int := 0
  y2 : Int := 0
deriving DecidableEq, Repr

/-- `Graticules::Attribute::AxisType`. -/
inductive AxisType where
  | TIME
  | VOLTAGE
deriving DecidableEq, Repr

/-- `Utils::ArrayConstants::MAX_GRATICULES`: size of the `Time` and
`Voltage` backing arrays. -/
def MAX_GRATICULES : Nat := 20

/-- The `Graticules` widget state.  The fixed arrays
`PrivateLineSegment Time[MAX_GRATICULES]` / `Voltage[MAX_GRATICULES]` are
modelled as total functions; which indices the code actually writes and
reads is tracked separately (see `timeWriteIndices`), so that the
bounds-safety claims are about the index sets the loops produce.  Colors
are modelled by their RGB565 numeric value. -/
structure Graticules where
  privateBoundary : PrivateBoundary := {}
  originColor : Nat := 0
  originThickness : Int := 0
  gridlineColor : Nat := 0
  gridlineThickness : Int := 0
  timeDivisions : Int := 0
  voltageDivisions : Int := 0
  xOriginIndex : Int := 0
  yOriginIndex : Int := 0
  timeStepSize : Int := 0
  voltageStepSize : Int := 0
  Time : Nat → PrivateLineSegment := fun _ => {}
  Voltage : Nat → PrivateLineSegment := fun _ => {}

/-- Pointwise update of a modelled line-segment array. -/
def updSeg (f : Nat → PrivateLineSegment) (i : Nat) (v : PrivateLineSegment) :
    Nat → PrivateLineSegment :=
  fun j => if j = i then v else f j

/-- `Graticules::setStepSize`: `timeLength = (x2 - x1) + 1`,
`timeStepSize = timeLength / timeDivisions` with C truncating division
(and likewise for the voltage axis). -/
def Graticules.setStepSize (g : Graticules) : Graticules :=
  let timeLength := g.privateBoundary.x2 - g.privateBoundary.x1 + 1
  let voltageLength := g.privateBoundary.y2 - g.privateBoundary.y1 + 1
  { g with
    timeStepSize := timeLength.tdiv g.timeDivisions
    voltageStepSize := voltageLength.tdiv g.voltageDivisions }

/-- The segment written for time line `i`:
`x = x1 + i * timeStepSize`, spanning `y1..y2`. -/
def Graticules.timeSegAt (g : Graticules) (i : Nat) : PrivateLineSegment :=
  { x1 := g.privateBoundary.x1 + (i : Int) * g.timeStepSize
    y1 := g.privateBoundary.y1
    x2 := g.privateBoundary.x1 + (i : Int) * g.timeStepSize
    y2 := g.privateBoundary.y2 }

/-- The segment written for voltage line `i`:
`y = y1 + i * voltageStepSize`, spanning `x1..x2`. -/
def Graticules.voltageSegAt (g : Graticules) (i : Nat) : PrivateLineSegment :=
  { x1 := g.privateBoundary.x1
    y1 := g.privateBoundary.y1 + (i : Int) * g.voltageStepSize
    x2 := g.privateBoundary.x2
    y2 := g.privateBoundary.y1 + (i : Int) * g.voltageStepSize }

/-- One iteration of the time loop of `Graticules::setLineSegments`. -/
def Graticules.writeTimeSeg (g : Graticules) (i : Nat) : Graticules :=
  { g with Time := updSeg g.Time i (g.timeSegAt i) }

/-- One iteration of the voltage loop of `Graticules::setLineSegments`. -/
def Graticules.writeVoltageSeg (g : Graticules) (i : Nat) : Graticules :=
  { g with Voltage := updSeg g.Voltage i (g.voltageSegAt i) }

/-- The indices the time loop `for (i = 0; i < timeDivisions; i++)`
writes (empty for non-positive division counts, as in C). -/
def Graticules.timeWriteIndices (g : Graticules) : List Nat :=
  List.range g.timeDivisions.toNat

/-- The indices the voltage loop writes. -/
def Graticules.voltageWriteIndices (g : Graticules) : List Nat :=
  List.range g.voltageDivisions.toNat

/-- `Graticules::setLineSegments`: run the two write loops. -/
def Graticules.setLineSegments (g : Graticules) : Graticules :=
  let g1 := g.timeWriteIndices.foldl Graticules.writeTimeSeg g
  g1.voltageWriteIndices.foldl Graticules.writeVoltageSeg g1

/-- `Graticules::configure`: store all inputs (copying the boundary into
`privateBoundary`), then compute step sizes and line segments. -/
def Graticules.configure (g : Graticules) (boundary : Boundary)
    (originColor : Nat) (originThickness : Int)
    (gridlineColor : Nat) (gridlineThickness : Int)
    (timeDivisions voltageDivisions xOriginIndex yOriginIndex : Int) :
    Graticules :=
  Graticules.setLineSegments (Graticules.setStepSize
    { g with
      privateBoundary :=
        { x1 := boundary.x1, y1 := boundary.y1
          x2 := boundary.x2, y2 := boundary.y2 }
      originColor := originColor
      originThickness := originThickness
      gridlineColor := gridlineColor
      gridlineThickness := gridlineThickness
      timeDivisions := timeDivisions
      voltageDivisions := voltageDivisions
      xOriginIndex := xOriginIndex
      yOriginIndex := yOriginIndex })

/-- `Graticules::getStepSize`. -/
def Graticules.getStepSize (g : Graticules) (type : AxisType) : Int :=
  match type with
  | .TIME => g.timeStepSize
  | .VOLTAGE => g.voltageStepSize

/-- `Graticules::getDivisions`. -/
def Graticules.getDivisions (g : Graticules) (type : AxisType) : Int :=
  match type with
  | .TIME => g.timeDivisions
  | .VOLTAGE => g.voltageDivisions

/-- `Graticules::isValidIndex`: `uint8_t graticuleCount = divisions;`
converts the signed 8-bit division count to `uint8_t` (reduction mod 256,
`Int.emod`), then checks `segmentIndex >= 0 && segmentIndex < graticuleCount`. -/
def Graticules.isValidIndex (g : Graticules) (segmentIndex : Int)
    (type : AxisType) : Bool :=
  let graticuleCount : Int :=
    (match type with
     | .TIME => g.timeDivisions
     | .VOLTAGE => g.voltageDivisions) % 256
  decide (0 ≤ segmentIndex ∧ segmentIndex < graticuleCount)

/-- `Graticules::getLineSegment`: bounds-checked read returning the
all-zero segment for an invalid index, otherwise a copy of the stored
segment. -/
def Graticules.getLineSegment (g : Graticules) (segmentIndex : Int)
    (type : AxisType) : GraticulesLineSegment :=
  if !(g.isValidIndex segmentIndex type) then
    { x1 := 0, y1 := 0, x2 := 0, y2 := 0 }
  else
    match type with
    | .TIME =>
      let s := g.Time segmentIndex.toNat
      { x1 := s.x1, y1 := s.y1, x2 := s.x2, y2 := s.y2 }
    | .VOLTAGE =>
      let s := g.Voltage segmentIndex.toNat
      { x1 := s.x1, y1 := s.y1, x2 := s.x2, y2 := s.y2 }

/-- The backing array of the given axis (`Time` or `Voltage`), for
stating which stored segment an in-range read returns. -/
def Graticules.storedSegment (g : Graticules) (axis : AxisType) (j : Nat) :
    PrivateLineSegment :=
  match axis with
  | .TIME => g.Time j
  | .VOLTAGE => g.Voltage j

/-- `Utils::Widget::Type`. -/
inductive WidgetType where
  | DEFAULT
  | LABEL
  | GRAPH
deriving DecidableEq, Repr

/-- `Utils::Widget::Graph`: the tagged-union payload for graph widgets. -/
structure GraphData where
  originColor : Nat := 0
  originThickness : Int := 0
  gridlineColor : Nat := 0
  gridlineThickness : Int := 0
  xDivisionQty : Int := 0
  yDivisionQty : Int := 0
  xOriginIndex : Int := 0
  yOriginIndex : Int := 0
deriving DecidableEq, Repr

/-- `Utils::Widget::Attributes`, restricted to the fields the builder and
the coordinator state logic read: the resolved geometry boundary and the
graph payload `data.graph`. -/
structure Attributes where
  isCustom : Bool := false
  wType : WidgetType := .DEFAULT
  geometryBoundary : Boundary := {}
  graph : GraphData := {}
deriving DecidableEq, Repr

/-- `ScreenState` (`src/ui/lvgl/Screen.h`). -/
inductive ScreenState where
  | UNINITIALIZED
  | SERVICES_SET
  | ERROR_SERVICES
  | WIDGETS_REGISTERED
  | ERROR_REGISTRATION
  | ATTRIBUTES_SET
  | ERROR_ATTRIBUTES
  | COMPLETE
deriving DecidableEq, Repr

/-- `BuilderState` (`src/ui/builder/WidgetBuilder.h`). -/
inductive BuilderState where
  | UNINITIALIZED
  | SERVICES_SET
  | ERROR_SERVICES
  | BUILDING
  | ERROR_BUILDING
  | COMPLETE
deriving DecidableEq, Repr

/-- The `Screen` coordinator, restricted to its state-machine behaviour:
the registry pointer is modelled as `Option` of the registry's entry list
(`none` = null pointer), the pool pointer by its null-ness.  The
per-record geometry mutation of `setRegistry` (float scaling) and the
LVGL side effects do not influence the `state` field except through the
modelled null checks. -/
structure ScreenM where
  state : ScreenState := .UNINITIALIZED
  widgetRegistry : Option (List (WidgetType × Option Attributes)) := none
  widgetPool : Option Unit := none

/-- `Screen::setServices`: store both pointers, then
`state = SERVICES_SET` if both are non-null, else `ERROR_SERVICES` —
unconditionally, whatever the current state. -/
def ScreenM.setServices (s : ScreenM)
    (widgetRegistry : Option (List (WidgetType × Option Attributes)))
    (widgetPool : Option Unit) : ScreenM :=
  { s with
    widgetRegistry := widgetRegistry
    widgetPool := widgetPool
    state :=
      if widgetRegistry.isSome && widgetPool.isSome then .SERVICES_SET
      else .ERROR_SERVICES }

/-- `Screen::setRegistry` state effect: iterate the registry; a null
attribute pointer aborts with `ERROR_REGISTRATION`, otherwise the state
becomes `WIDGETS_REGISTERED` — regardless of the current state.  (Called
with a null registry pointer the C++ would dereference null; that path is
unreachable in the orchestrated program and is modelled as a no-op.) -/
def ScreenM.setRegistry (s : ScreenM) : ScreenM :=
  match s.widgetRegistry with
  | some entries =>
    { s with
      state :=
        if entries.any (fun e => e.2.isNone) then .ERROR_REGISTRATION
        else .WIDGETS_REGISTERED }
  | none => s

/-- `Screen::drawWidgets`: invalidates every pool widget and then sets
`state = COMPLETE` unconditionally. -/
def ScreenM.drawWidgets (s : ScreenM) : ScreenM :=
  { s with state := .COMPLETE }

/-- The `WidgetBuilder` singleton state: registry pointer as `Option` of
its entry list, pool pointer as `Option` of the `getWidget` lookup
function (`none` results model null `Widget*`).  Pool instances are
modelled by their `Graticules` state (the only widget kind the builder
configures). -/
structure WidgetBuilderM where
  state : BuilderState := .UNINITIALIZED
  widgetRegistry : Option (List (WidgetType × Option Attributes)) := none
  widgetPool : Option (WidgetType → Option Graticules) := none

/-- `WidgetBuilder::setServices`: identical contract to
`Screen::setServices`. -/
def WidgetBuilderM.setServices (b : WidgetBuilderM)
    (widgetRegistry : Option (List (WidgetType × Option Attributes)))
    (widgetPool : Option (WidgetType → Option Graticules)) : WidgetBuilderM :=
  { b with
    widgetRegistry := widgetRegistry
    widgetPool := widgetPool
    state :=
      if widgetRegistry.isSome && widgetPool.isSome then .SERVICES_SET
      else .ERROR_SERVICES }

/-- Update the pool after configuring a widget in place. -/
def updPool (pool : WidgetType → Option Graticules) (t : WidgetType) (w : Graticules) :
    WidgetType → Option Graticules :=
  fun t2 => if t2 = t then some w else pool t2

/-- The loop body of `WidgetBuilder::setAttribute`: for each registry
entry, fetch the attributes and the matching pool instance; if either is
missing abort with `ERROR_BUILDING`; dispatch `GRAPH` entries to
`Graticules::configure` with the resolved boundary and the graph payload;
silently skip every other type; on exhausting all entries, `COMPLETE`. -/
def setAttributeGo (pool : WidgetType → Option Graticules) :
    List (WidgetType × Option Attributes) →
    (WidgetType → Option Graticules) × BuilderState
  | [] => (pool, .COMPLETE)
  | (widgetType, widgetAttributes) :: rest =>
    match widgetAttributes, pool widgetType with
    | some attrs, some w =>
      match widgetType with
      | .GRAPH =>
        setAttributeGo
          (updPool pool .GRAPH
            (Graticules.configure w attrs.geometryBoundary
              attrs.graph.originColor attrs.graph.originThickness
              attrs.graph.gridlineColor attrs.graph.gridlineThickness
              attrs.graph.xDivisionQty attrs.graph.yDivisionQty
              attrs.graph.xOriginIndex attrs.graph.yOriginIndex)) rest
      | _ => setAttributeGo pool rest
    | _, _ => (pool, .ERROR_BUILDING)

/-- `WidgetBuilder::setAttribute` on the builder state.  (With a null
registry or pool the C++ would dereference null; in the program this is
only ever invoked after a successful `setServices`; modelled as a no-op
on that unreachable path.) -/
def WidgetBuilderM.setAttribute (b : WidgetBuilderM) : WidgetBuilderM :=
  match b.widgetRegistry, b.widgetPool with
  | some entries, some pool =>
    let r := setAttributeGo pool entries
    { b with widgetPool := some r.1, state := r.2 }
  | _, _ => b

/-- `WidgetBuilder::setWidgets`: the `while (building)` state-machine
loop, unrolled.  `SERVICES_SET` moves to `BUILDING` and runs
`setAttribute`, which always ends in `COMPLETE` or `ERROR_BUILDING`, upon
which the loop exits; `COMPLETE`/`ERROR_BUILDING` exit immediately; any
other state (including `UNINITIALIZED` and `ERROR_SERVICES`) hits the
`default` arm, which stops and sets `ERROR_BUILDING`. -/
def WidgetBuilderM.setWidgets (b : WidgetBuilderM) : WidgetBuilderM :=
  match b.state with
  | .SERVICES_SET => WidgetBuilderM.setAttribute { b with state := .BUILDING }
  | .BUILDING => WidgetBuilderM.setAttribute b
  | .COMPLETE => b
  | .ERROR_BUILDING => b
  | _ => { b with state := .ERROR_BUILDING }

namespace HashTable

theorem slotAt_set {V : Type} [Inhabited V] (t : HTable V) (j0 : Nat)
    (e : HEntry V) (j : Nat) (h : j0 < t.length) :
    slotAt (t.set j0 e) j = if j = j0 then e else slotAt t j := by
  induction t generalizing j0 j with
  | nil => simp at h
  | cons a t ih =>
    cases j0 with
    | zero =>
      cases j with
      | zero => simp [slotAt, List.set]
      | succ j => simp [slotAt, List.set]
    | succ j0 =>
      cases j with
      | zero => simp [slotAt, List.set]
      | succ j =>
        have h' : j0 < t.length := by simpa using h
        have hrec := ih j0 j h'
        have e2 : ∀ (l : List (HEntry V)) (x : HEntry V) (n : Nat),
            slotAt (x :: l) (n + 1) = slotAt l n := by
          intro l x n; simp [slotAt]
        have e1 : (a :: t).set (j0 + 1) e = a :: t.set j0 e := rfl
        rw [e1, e2 (t.set j0 e) a j, e2 t a j]
        by_cases hj : j = j0
        · subst hj
          rw [if_pos rfl] at hrec
          rw [if_pos rfl]
          exact hrec
        · rw [if_neg hj] at hrec
          rw [if_neg (by omega)]
          exact hrec

theorem firstQual_eq_none (p : Nat → Bool) :
    ∀ (fuel start : Nat),
      (∀ j, start ≤ j → j < start + fuel → p j = false) →
      firstQual p start fuel = none := by
  intro fuel
  induction fuel with
  | zero => intro start _; rfl
  | succ fuel ih =>
    intro start h
    have hstart : p start = false := h start (Nat.le_refl _) (by omega)
    simp only [firstQual, hstart]
    exact ih (start + 1) (fun j hj1 hj2 => h j (by omega) (by omega))

theorem firstQual_eq_some (p : Nat → Bool) :
    ∀ (fuel start i : Nat), firstQual p start fuel = some i →
      start ≤ i ∧ i < start + fuel ∧ p i = true ∧
      ∀ j, start ≤ j → j < i → p j = false := by
  intro fuel
  induction fuel with
  | zero => intro start i h; simp [firstQual] at h
  | succ fuel ih =>
    intro start i h
    simp only [firstQual] at h
    by_cases hp : p start = true
    · simp [hp] at h
      subst h
      exact ⟨Nat.le_refl _, by omega, hp, fun j hj1 hj2 => by omega⟩
    · simp [hp] at h
      obtain ⟨h1, h2, h3, h4⟩ := ih (start + 1) i h
      refine ⟨by omega, by omega, h3, fun j hj1 hj2 => ?_⟩
      rcases Nat.eq_or_lt_of_le hj1 with he | hl
      · simpa [← he] using Bool.eq_false_iff.mpr hp
      · exact h4 j hl hj2

theorem findGo_eq_none {V : Type} [Inhabited V] (t : HTable V) (k : Nat) :
    ∀ (fuel i : Nat),
      (∀ d, d < fuel → findSlotOK (slotAt t (probeIdx t.length k (i + d))) k = false) →
      findGo t k i fuel = none := by
  intro fuel
  induction fuel with
  | zero => intro i _; rfl
  | succ fuel ih =>
    intro i h
    have h0 : findSlotOK (slotAt t (probeIdx t.length k i)) k = false := by
      simpa using h 0 (by omega)
    simp only [findGo, h0]
    simp only [Bool.false_eq_true, if_false]
    exact ih (i + 1) (fun d hd => by
      have := h (d + 1) (by omega)
      simpa [Nat.add_assoc, Nat.add_comm 1 d] using this)

/-- C5: table-full behaviour of `HashTable::insert`.  If every slot of the
table is occupied, non-tombstoned and holds a key different from `k`, the
probe loop exhausts the whole probe sequence, `insert(k, v)` returns
`false`, and every slot of the table is left unchanged. -/
theorem insert_full_unchanged {V : Type} [Inhabited V] (t : HTable V)
    (k : Nat) (v : V)
    (h : ∀ j, j < t.length → (slotAt t j).occupied = true ∧
      (slotAt t j).deleted = false ∧ (slotAt t j).key ≠ k) :
    insert t k v = (false, t) := by
  have hnone :
      firstQual (fun i => insertSlotOK t k (probeIdx t.length k i)) 0 t.length = none := by
    apply firstQual_eq_none
    intro j _ hj
    have hpos : 0 < t.length := by omega
    have hlt : probeIdx t.length k j < t.length := Nat.mod_lt _ hpos
    obtain ⟨ho, hd, hk⟩ := h _ hlt
    simp [insertSlotOK, ho, hd, hk]
  simp [insert, hnone]

end HashTable

/-- C1: evaluation of the code at the failing input.  After
`insert(0,10); insert(10,20); remove(0); insert(10,30)` on a capacity-10
table, `remove(10)` returns `true`, yet `find(10)` on the resulting table
returns the stale value `20` instead of absent: `insert(10,30)` reused the
tombstone left by `remove(0)` without noticing that key `10` already lived
one probe further, so the table held two live entries for key `10` and
`remove(10)` tombstoned only the first. -/
theorem HashTable.find_after_remove_stale :
    (HashTable.remove (HashTable.runOps Nat 10 HashTable.buggyOps) 10).1 = true ∧
    HashTable.find (HashTable.remove (HashTable.runOps Nat 10 HashTable.buggyOps) 10).2 10
      = some 20 := by
  constructor <;> rfl

/-- C2: evaluation of the code at the failing input.  After
`insert(0,10); insert(10,20); remove(0); insert(10,30)` on a capacity-10
table, key `10` occupies two distinct occupied, non-tombstoned slots at
once, violating the claimed at-most-one-slot-per-key invariant. -/
theorem HashTable.duplicate_key_reachable :
    HashTable.countKey (HashTable.runOps Nat 10 HashTable.buggyOps) 10 = 2 := by
  rfl

/-- C5 witness: the table built by inserting the ten distinct keys
`0..9` into the empty capacity-10 table satisfies the table-full
hypothesis for the fresh key `10`; the 11th insert returns `false`
leaving the table unchanged, and all ten prior entries are still
findable with their values. -/
theorem HashTable.insert_full_unchanged_witness :
    (∀ j, j < HashTable.fullTable.length →
      (HashTable.slotAt HashTable.fullTable j).occupied = true ∧
      (HashTable.slotAt HashTable.fullTable j).deleted = false ∧
      (HashTable.slotAt HashTable.fullTable j).key ≠ 10) ∧
    HashTable.insert HashTable.fullTable 10 999 = (false, HashTable.fullTable) ∧
    (∀ k, k < 10 → HashTable.find HashTable.fullTable k = some (100 + k)) :=
  ⟨by decide,
   HashTable.insert_full_unchanged HashTable.fullTable 10 999 (by decide),
   by decide⟩

namespace HashTable

theorem probeIdx_inj (capacity k : Nat) {a b : Nat} (ha : a < capacity)
    (hb : b < capacity) (h : probeIdx capacity k a = probeIdx capacity k b) :
    a = b := by
  have h' : (k % capacity + a) % capacity = (k % capacity + b) % capacity := h
  have hm : Nat.ModEq capacity a b := Nat.ModEq.add_left_cancel' (k % capacity) h'
  have h2 : a % capacity = b % capacity := hm
  rwa [Nat.mod_eq_of_lt ha, Nat.mod_eq_of_lt hb] at h2

theorem insert_spec {V : Type} [Inhabited V] (t : HTable V) (k : Nat) (v : V) :
    insert t k v = (false, t) ∨
    ∃ i, i < t.length ∧ insertSlotOK t k (probeIdx t.length k i) = true ∧
      (∀ i2, i2 < i → insertSlotOK t k (probeIdx t.length k i2) = false) ∧
      insert t k v = (true, t.set (probeIdx t.length k i)
        { key := k, value := v, occupied := true, deleted := false }) := by
  unfold insert
  cases hfq : firstQual (fun i => insertSlotOK t k (probeIdx t.length k i)) 0 t.length with
  | none => exact Or.inl rfl
  | some i =>
    obtain ⟨h1, h2, h3, h4⟩ := firstQual_eq_some _ _ _ _ hfq
    refine Or.inr ⟨i, by omega, by simpa using h3,
      fun i2 hi2 => by simpa using h4 i2 (Nat.zero_le _) hi2, rfl⟩

theorem remove_spec {V : Type} [Inhabited V] (t : HTable V) (k : Nat) :
    remove t k = (false, t) ∨
    ∃ i, i < t.length ∧ findSlotOK (slotAt t (probeIdx t.length k i)) k = true ∧
      remove t k = (true, t.set (probeIdx t.length k i)
        { slotAt t (probeIdx t.length k i) with
          deleted := true, value := default, key := 0 }) := by
  unfold remove
  cases hfq : firstQual (fun i => findSlotOK (slotAt t (probeIdx t.length k i)) k) 0 t.length with
  | none => exact Or.inl rfl
  | some i =>
    obtain ⟨h1, h2, h3, h4⟩ := firstQual_eq_some _ _ _ _ hfq
    exact Or.inr ⟨i, by omega, by simpa using h3, rfl⟩

theorem Inv_insert {V : Type} [Inhabited V] (t : HTable V) (k : Nat) (v : V)
    (h : Inv t) : Inv (insert t k v).2 := by
  rcases insert_spec t k v with heq | ⟨i0, hi0, hok, hmin, heq⟩
  · rw [heq]; exact h
  · rw [heq]
    intro k2 d hd hm d2 hd2
    simp only [List.length_set] at hd hm ⊢
    have hC : 0 < t.length := by omega
    have hj0lt : probeIdx t.length k i0 < t.length := Nat.mod_lt _ hC
    rw [slotAt_set t _ _ _ hj0lt] at hm
    by_cases hcase : probeIdx t.length k2 d = probeIdx t.length k i0
    · rw [if_pos hcase] at hm
      have hk2 : k = k2 := by simpa [findSlotOK] using hm
      subst hk2
      have hd_eq : d = i0 := probeIdx_inj t.length k hd hi0 hcase
      subst hd_eq
      have hins := hmin d2 hd2
      have hocc : (slotAt t (probeIdx t.length k d2)).occupied = true := by
        cases hb : (slotAt t (probeIdx t.length k d2)).occupied with
        | true => rfl
        | false => simp [insertSlotOK, hb] at hins
      rw [slotAt_set t _ _ _ hj0lt]
      by_cases hc2 : probeIdx t.length k d2 = probeIdx t.length k d
      · rw [if_pos hc2]
      · rw [if_neg hc2]; exact hocc
    · rw [if_neg hcase] at hm
      have hold := h k2 d hd hm d2 hd2
      rw [slotAt_set t _ _ _ hj0lt]
      by_cases hc2 : probeIdx t.length k2 d2 = probeIdx t.length k i0
      · rw [if_pos hc2]
      · rw [if_neg hc2]; exact hold

theorem Inv_remove {V : Type} [Inhabited V] (t : HTable V) (k : Nat)
    (h : Inv t) : Inv (remove t k).2 := by
  rcases remove_spec t k with heq | ⟨i0, hi0, hok, heq⟩
  · rw [heq]; exact h
  · rw [heq]
    intro k2 d hd hm d2 hd2
    simp only [List.length_set] at hd hm ⊢
    have hC : 0 < t.length := by omega
    have hj0lt : probeIdx t.length k i0 < t.length := Nat.mod_lt _ hC
    rw [slotAt_set t _ _ _ hj0lt] at hm
    by_cases hcase : probeIdx t.length k2 d = probeIdx t.length k i0
    · rw [if_pos hcase] at hm
      simp [findSlotOK] at hm
    · rw [if_neg hcase] at hm
      have hold := h k2 d hd hm d2 hd2
      rw [slotAt_set t _ _ _ hj0lt]
      by_cases hc2 : probeIdx t.length k2 d2 = probeIdx t.length k i0
      · rw [if_pos hc2]
        have hocc0 : (slotAt t (probeIdx t.length k i0)).occupied = true := by
          simp [findSlotOK] at hok
          exact hok.1.1
        simpa using hocc0
      · rw [if_neg hc2]; exact hold

theorem slotAt_emptyTable (V : Type) [Inhabited V] (capacity j : Nat) :
    slotAt (emptyTable V capacity) j = default := by
  induction capacity generalizing j with
  | zero => simp [emptyTable, slotAt]
  | succ c ih =>
    cases j with
    | zero => simp [emptyTable, slotAt]
    | succ j =>
      have hstep : emptyTable V (c + 1) = (default : HEntry V) :: emptyTable V c := by
        simp [emptyTable, List.replicate_succ]
      rw [hstep]
      simpa [slotAt] using ih j

theorem Inv_emptyTable (V : Type) [Inhabited V] (capacity : Nat) :
    Inv (emptyTable V capacity) := by
  intro k d hd hm d2 hd2
  rw [slotAt_emptyTable] at hm
  have hdef : findSlotOK (default : HEntry V) k = false := rfl
  rw [hdef] at hm
  cases hm

theorem Inv_applyOp {V : Type} [Inhabited V] (t : HTable V) (op : Op V)
    (h : Inv t) : Inv (applyOp t op) := by
  cases op with
  | ins k v => exact Inv_insert t k v h
  | rem k => exact Inv_remove t k h

theorem Inv_foldl {V : Type} [Inhabited V] (ops : List (Op V)) :
    ∀ (t : HTable V), Inv t → Inv (ops.foldl applyOp t) := by
  induction ops with
  | nil => intro t h; exact h
  | cons op ops ih => intro t h; exact ih _ (Inv_applyOp t op h)

theorem Inv_runOps (V : Type) [Inhabited V] (capacity : Nat)
    (ops : List (Op V)) : Inv (runOps V capacity ops) :=
  Inv_foldl ops _ (Inv_emptyTable V capacity)

theorem findGo_eq_specFindGo {V : Type} [Inhabited V] (t : HTable V) (k : Nat) :
    ∀ (fuel i : Nat),
      (∀ d, d < fuel →
        findSlotOK (slotAt t (probeIdx t.length k (i + d))) k = true →
        ∀ d2, d2 < d → (slotAt t (probeIdx t.length k (i + d2))).occupied = true) →
      findGo t k i fuel = specFindGo t k i fuel := by
  intro fuel
  induction fuel with
  | zero => intro i _; rfl
  | succ fuel ih =>
    intro i H
    by_cases hm : findSlotOK (slotAt t (probeIdx t.length k i)) k = true
    · have hocc : (slotAt t (probeIdx t.length k i)).occupied = true := by
        simp [findSlotOK] at hm
        exact hm.1.1
      simp [findGo, specFindGo, hm, hocc]
    · have hmf : findSlotOK (slotAt t (probeIdx t.length k i)) k = false := by
        simpa using hm
      cases hocc : (slotAt t (probeIdx t.length k i)).occupied with
      | true =>
        simp only [findGo, specFindGo, hmf, hocc]
        simp only [Bool.not_true, Bool.false_eq_true, if_false]
        apply ih
        intro d hd hmatch d2 hd2
        have hmatch' :
            findSlotOK (slotAt t (probeIdx t.length k (i + (d + 1)))) k = true := by
          rw [show i + (d + 1) = i + 1 + d from by omega]
          exact hmatch
        have := H (d + 1) (by omega) hmatch' (d2 + 1) (by omega)
        rw [show i + (d2 + 1) = i + 1 + d2 from by omega] at this
        exact this
      | false =>
        simp only [findGo, specFindGo, hmf, hocc]
        simp only [Bool.not_false, if_true, Bool.false_eq_true, if_false]
        apply findGo_eq_none
        intro d hd
        cases hmt : findSlotOK (slotAt t (probeIdx t.length k (i + 1 + d))) k with
        | false => rfl
        | true =>
          have hmatch :
              findSlotOK (slotAt t (probeIdx t.length k (i + (d + 1)))) k = true := by
            rw [show i + (d + 1) = i + 1 + d from by omega]
            exact hmt
          have hcontra := H (d + 1) (by omega) hmatch 0 (by omega)
          rw [Nat.add_zero] at hcontra
          exact absurd hcontra (by simp [hocc])

theorem find_eq_specFind_of_Inv {V : Type} [Inhabited V] (t : HTable V)
    (k : Nat) (h : Inv t) : find t k = specFind t k := by
  apply findGo_eq_specFindGo
  intro d hd hmatch d2 hd2
  have := h k d hd (by simpa using hmatch) d2 hd2
  simpa using this

end HashTable

/-- C10: the implemented `find` (which scans the entire probe sequence of
length capacity) agrees with the spec's `find` (which probes the same
sequence but stops and reports absent at the first never-occupied slot)
on every table state reachable from the empty table by any sequence of
insert/remove operations, at every capacity and for every key.  The proof
goes through the reachable-state invariant `HashTable.Inv`: a matching
slot never lies beyond a never-occupied slot of its probe sequence,
because `insert` only writes past slots that were occupied at insertion
time and the `occupied` flag is never cleared. -/
theorem HashTable.find_refines_specFind (V : Type) [Inhabited V]
    (capacity : Nat) (ops : List (HashTable.Op V)) (k : Nat) :
    HashTable.find (HashTable.runOps V capacity ops) k
      = HashTable.specFind (HashTable.runOps V capacity ops) k :=
  HashTable.find_eq_specFind_of_Inv _ k (HashTable.Inv_runOps V capacity ops)

theorem foldl_writeTimeSeg_pres (is : List Nat) (g : Graticules) :
    (is.foldl Graticules.writeTimeSeg g).privateBoundary = g.privateBoundary ∧
    (is.foldl Graticules.writeTimeSeg g).timeStepSize = g.timeStepSize ∧
    (is.foldl Graticules.writeTimeSeg g).voltageStepSize = g.voltageStepSize ∧
    (is.foldl Graticules.writeTimeSeg g).timeDivisions = g.timeDivisions ∧
    (is.foldl Graticules.writeTimeSeg g).voltageDivisions = g.voltageDivisions ∧
    (is.foldl Graticules.writeTimeSeg g).Voltage = g.Voltage := by
  induction is generalizing g with
  | nil => simp
  | cons i is ih =>
    simp only [List.foldl_cons]
    have h := ih (Graticules.writeTimeSeg g i)
    simpa [Graticules.writeTimeSeg] using h

theorem foldl_writeVoltageSeg_pres (is : List Nat) (g : Graticules) :
    (is.foldl Graticules.writeVoltageSeg g).privateBoundary = g.privateBoundary ∧
    (is.foldl Graticules.writeVoltageSeg g).timeStepSize = g.timeStepSize ∧
    (is.foldl Graticules.writeVoltageSeg g).voltageStepSize = g.voltageStepSize ∧
    (is.foldl Graticules.writeVoltageSeg g).timeDivisions = g.timeDivisions ∧
    (is.foldl Graticules.writeVoltageSeg g).voltageDivisions = g.voltageDivisions ∧
    (is.foldl Graticules.writeVoltageSeg g).Time = g.Time := by
  induction is generalizing g with
  | nil => simp
  | cons i is ih =>
    simp only [List.foldl_cons]
    have h := ih (Graticules.writeVoltageSeg g i)
    simpa [Graticules.writeVoltageSeg] using h

theorem foldl_writeTimeSeg_Time (g : Graticules) :
    ∀ (n j : Nat), ((List.range n).foldl Graticules.writeTimeSeg g).Time j =
      if j < n then g.timeSegAt j else g.Time j := by
  intro n
  induction n with
  | zero => intro j; simp
  | succ n ih =>
    intro j
    rw [List.range_succ, List.foldl_append]
    simp only [List.foldl_cons, List.foldl_nil]
    obtain ⟨hb, hs, _, _, _, _⟩ := foldl_writeTimeSeg_pres (List.range n) g
    have hseg : ((List.range n).foldl Graticules.writeTimeSeg g).timeSegAt n
        = g.timeSegAt n := by
      simp [Graticules.timeSegAt, hb, hs]
    by_cases hj : j = n
    · subst hj
      simp [Graticules.writeTimeSeg, updSeg, hseg]
    · have : (Graticules.writeTimeSeg ((List.range n).foldl Graticules.writeTimeSeg g) n).Time j
          = ((List.range n).foldl Graticules.writeTimeSeg g).Time j := by
        simp [Graticules.writeTimeSeg, updSeg, hj]
      rw [this, ih j]
      rcases Nat.lt_or_ge j n with hlt | hge
      · rw [if_pos hlt, if_pos (Nat.lt_succ_of_lt hlt)]
      · have h1 : ¬(j < n) := by omega
        have h2 : ¬(j < n + 1) := by omega
        rw [if_neg h1, if_neg h2]

theorem foldl_writeVoltageSeg_Voltage (g : Graticules) :
    ∀ (n j : Nat), ((List.range n).foldl Graticules.writeVoltageSeg g).Voltage j =
      if j < n then g.voltageSegAt j else g.Voltage j := by
  intro n
  induction n with
  | zero => intro j; simp
  | succ n ih =>
    intro j
    rw [List.range_succ, List.foldl_append]
    simp only [List.foldl_cons, List.foldl_nil]
    obtain ⟨hb, _, hs, _, _, _⟩ := foldl_writeVoltageSeg_pres (List.range n) g
    have hseg : ((List.range n).foldl Graticules.writeVoltageSeg g).voltageSegAt n
        = g.voltageSegAt n := by
      simp [Graticules.voltageSegAt, hb, hs]
    by_cases hj : j = n
    · subst hj
      simp [Graticules.writeVoltageSeg, updSeg, hseg]
    · have : (Graticules.writeVoltageSeg ((List.range n).foldl Graticules.writeVoltageSeg g) n).Voltage j
          = ((List.range n).foldl Graticules.writeVoltageSeg g).Voltage j := by
        simp [Graticules.writeVoltageSeg, updSeg, hj]
      rw [this, ih j]
      rcases Nat.lt_or_ge j n with hlt | hge
      · rw [if_pos hlt, if_pos (Nat.lt_succ_of_lt hlt)]
      · have h1 : ¬(j < n) := by omega
        have h2 : ¬(j < n + 1) := by omega
        rw [if_neg h1, if_neg h2]

theorem setLineSegments_pres (g : Graticules) :
    (Graticules.setLineSegments g).privateBoundary = g.privateBoundary ∧
    (Graticules.setLineSegments g).timeStepSize = g.timeStepSize ∧
    (Graticules.setLineSegments g).voltageStepSize = g.voltageStepSize ∧
    (Graticules.setLineSegments g).timeDivisions = g.timeDivisions ∧
    (Graticules.setLineSegments g).voltageDivisions = g.voltageDivisions := by
  unfold Graticules.setLineSegments
  obtain ⟨h1, h2, h3, h4, h5, _⟩ :=
    foldl_writeTimeSeg_pres g.timeWriteIndices g
  obtain ⟨g1, g2, g3, g4, g5, _⟩ :=
    foldl_writeVoltageSeg_pres
      (g.timeWriteIndices.foldl Graticules.writeTimeSeg g).voltageWriteIndices
      (g.timeWriteIndices.foldl Graticules.writeTimeSeg g)
  exact ⟨g1.trans h1, g2.trans h2, g3.trans h3, g4.trans h4, g5.trans h5⟩

theorem setLineSegments_Time (g : Graticules) (j : Nat) :
    (Graticules.setLineSegments g).Time j =
      if j < g.timeDivisions.toNat then g.timeSegAt j else g.Time j := by
  unfold Graticules.setLineSegments
  obtain ⟨_, _, _, _, _, hT⟩ :=
    foldl_writeVoltageSeg_pres
      (g.timeWriteIndices.foldl Graticules.writeTimeSeg g).voltageWriteIndices
      (g.timeWriteIndices.foldl Graticules.writeTimeSeg g)
  rw [hT]
  have := foldl_writeTimeSeg_Time g g.timeDivisions.toNat j
  simpa [Graticules.timeWriteIndices] using this

theorem setLineSegments_Voltage (g : Graticules) (j : Nat) :
    (Graticules.setLineSegments g).Voltage j =
      if j < g.voltageDivisions.toNat then g.voltageSegAt j else g.Voltage j := by
  have hueq : Graticules.setLineSegments g =
      List.foldl Graticules.writeVoltageSeg
        (List.foldl Graticules.writeTimeSeg g g.timeWriteIndices)
        (List.foldl Graticules.writeTimeSeg g g.timeWriteIndices).voltageWriteIndices := rfl
  rw [hueq]
  obtain ⟨hb, _, hs, _, hvd, hV⟩ :=
    foldl_writeTimeSeg_pres g.timeWriteIndices g
  have hWI : (g.timeWriteIndices.foldl Graticules.writeTimeSeg g).voltageWriteIndices
      = List.range g.voltageDivisions.toNat := by
    simp [Graticules.voltageWriteIndices, hvd]
  rw [hWI]
  have hmain := foldl_writeVoltageSeg_Voltage
    (g.timeWriteIndices.foldl Graticules.writeTimeSeg g) g.voltageDivisions.toNat j
  rw [hmain]
  have hseg : (g.timeWriteIndices.foldl Graticules.writeTimeSeg g).voltageSegAt j
      = g.voltageSegAt j := by
    simp [Graticules.voltageSegAt, hb, hs]
  rw [hseg, hV]

theorem configure_fields (g : Graticules) (b : Boundary) (oc : Nat) (ot : Int)
    (gc : Nat) (gt : Int) (td vd xo yo : Int) :
    (Graticules.configure g b oc ot gc gt td vd xo yo).privateBoundary
        = { x1 := b.x1, y1 := b.y1, x2 := b.x2, y2 := b.y2 } ∧
    (Graticules.configure g b oc ot gc gt td vd xo yo).timeDivisions = td ∧
    (Graticules.configure g b oc ot gc gt td vd xo yo).voltageDivisions = vd ∧
    (Graticules.configure g b oc ot gc gt td vd xo yo).timeStepSize
        = (b.x2 - b.x1 + 1).tdiv td ∧
    (Graticules.configure g b oc ot gc gt td vd xo yo).voltageStepSize
        = (b.y2 - b.y1 + 1).tdiv vd := by
  have hp := setLineSegments_pres (Graticules.setStepSize
    { g with
      privateBoundary := { x1 := b.x1, y1 := b.y1, x2 := b.x2, y2 := b.y2 }
      originColor := oc
      originThickness := ot
      gridlineColor := gc
      gridlineThickness := gt
      timeDivisions := td
      voltageDivisions := vd
      xOriginIndex := xo
      yOriginIndex := yo })
  exact ⟨hp.1.trans rfl, hp.2.2.2.1.trans rfl, hp.2.2.2.2.trans rfl,
    hp.2.1.trans rfl, hp.2.2.1.trans rfl⟩

theorem configure_Time (g : Graticules) (b : Boundary) (oc : Nat) (ot : Int)
    (gc : Nat) (gt : Int) (td vd xo yo : Int) (j : Nat) (hj : j < td.toNat) :
    (Graticules.configure g b oc ot gc gt td vd xo yo).Time j =
      { x1 := b.x1 + (j : Int) * ((b.x2 - b.x1 + 1).tdiv td)
        y1 := b.y1
        x2 := b.x1 + (j : Int) * ((b.x2 - b.x1 + 1).tdiv td)
        y2 := b.y2 } := by
  have hT := setLineSegments_Time (Graticules.setStepSize
    { g with
      privateBoundary := { x1 := b.x1, y1 := b.y1, x2 := b.x2, y2 := b.y2 }
      originColor := oc
      originThickness := ot
      gridlineColor := gc
      gridlineThickness := gt
      timeDivisions := td
      voltageDivisions := vd
      xOriginIndex := xo
      yOriginIndex := yo }) j
  refine hT.trans ?_
  simp only [Graticules.setStepSize]
  rw [if_pos hj]
  simp [Graticules.timeSegAt]

theorem configure_Voltage (g : Graticules) (b : Boundary) (oc : Nat) (ot : Int)
    (gc : Nat) (gt : Int) (td vd xo yo : Int) (j : Nat) (hj : j < vd.toNat) :
    (Graticules.configure g b oc ot gc gt td vd xo yo).Voltage j =
      { x1 := b.x1
        y1 := b.y1 + (j : Int) * ((b.y2 - b.y1 + 1).tdiv vd)
        x2 := b.x2
        y2 := b.y1 + (j : Int) * ((b.y2 - b.y1 + 1).tdiv vd) } := by
  have hV := setLineSegments_Voltage (Graticules.setStepSize
    { g with
      privateBoundary := { x1 := b.x1, y1 := b.y1, x2 := b.x2, y2 := b.y2 }
      originColor := oc
      originThickness := ot
      gridlineColor := gc
      gridlineThickness := gt
      timeDivisions := td
      voltageDivisions := vd
      xOriginIndex := xo
      yOriginIndex := yo }) j
  refine hV.trans ?_
  simp only [Graticules.setStepSize]
  rw [if_pos hj]
  simp [Graticules.voltageSegAt]

/-- C4: `Graticules::configure` geometry.  For a boundary with
`x2 ≥ x1`, `y2 ≥ y1` and division counts in `1..MAX_GRATICULES` (beyond
the backing-array capacity the C++ behaviour is undefined; see the C9
safety analysis), the step size of each axis is the inclusive span of
that axis divided by its division count with truncating integer division,
and line `i` (for `0 ≤ i < divisions`) is placed at `boundary start +
i * stepSize` spanning the full orthogonal extent.  In particular the
boundary `(0,0)-(479,383)` with `timeDivisions = 10` yields step size 48,
line 0 `(0,0)-(0,383)`, line 9 `(432,0)-(432,383)`, and index 10 is
rejected by the bounds check (no 11th line covers the remainder
`432..479`). -/
theorem Graticules.configure_geometry (g : Graticules) (b : Boundary)
    (oc : Nat) (ot : Int) (gc : Nat) (gt : Int) (td vd xo yo : Int)
    (hx : b.x1 ≤ b.x2) (hy : b.y1 ≤ b.y2) (htd : 0 < td) (hvd : 0 < vd)
    (htdM : td ≤ (MAX_GRATICULES : Int)) (hvdM : vd ≤ (MAX_GRATICULES : Int)) :
    (Graticules.configure g b oc ot gc gt td vd xo yo).getStepSize .TIME
        = (b.x2 - b.x1 + 1).tdiv td ∧
    (Graticules.configure g b oc ot gc gt td vd xo yo).getStepSize .VOLTAGE
        = (b.y2 - b.y1 + 1).tdiv vd ∧
    (∀ j : Nat, (j : Int) < td →
      (Graticules.configure g b oc ot gc gt td vd xo yo).Time j =
        { x1 := b.x1 + (j : Int) * ((b.x2 - b.x1 + 1).tdiv td)
          y1 := b.y1
          x2 := b.x1 + (j : Int) * ((b.x2 - b.x1 + 1).tdiv td)
          y2 := b.y2 }) ∧
    (∀ j : Nat, (j : Int) < vd →
      (Graticules.configure g b oc ot gc gt td vd xo yo).Voltage j =
        { x1 := b.x1
          y1 := b.y1 + (j : Int) * ((b.y2 - b.y1 + 1).tdiv vd)
          x2 := b.x2
          y2 := b.y1 + (j : Int) * ((b.y2 - b.y1 + 1).tdiv vd) }) ∧
    ((Graticules.configure {} { x1 := 0, y1 := 0, x2 := 479, y2 := 383 }
        0 0 0 0 10 8 0 0).getStepSize .TIME = 48 ∧
     (Graticules.configure {} { x1 := 0, y1 := 0, x2 := 479, y2 := 383 }
        0 0 0 0 10 8 0 0).getLineSegment 0 .TIME
        = { x1 := 0, y1 := 0, x2 := 0, y2 := 383 } ∧
     (Graticules.configure {} { x1 := 0, y1 := 0, x2 := 479, y2 := 383 }
        0 0 0 0 10 8 0 0).getLineSegment 9 .TIME
        = { x1 := 432, y1 := 0, x2 := 432, y2 := 383 } ∧
     (Graticules.configure {} { x1 := 0, y1 := 0, x2 := 479, y2 := 383 }
        0 0 0 0 10 8 0 0).getLineSegment 10 .TIME
        = { x1 := 0, y1 := 0, x2 := 0, y2 := 0 }) := by
  obtain ⟨hb, htd2, hvd2, hts, hvs⟩ := configure_fields g b oc ot gc gt td vd xo yo
  refine ⟨?_, ?_, ?_, ?_, ?_, ?_, ?_, ?_⟩
  · exact hts
  · exact hvs
  · intro j hj
    exact configure_Time g b oc ot gc gt td vd xo yo j (by omega)
  · intro j hj
    exact configure_Voltage g b oc ot gc gt td vd xo yo j (by omega)
  · decide
  · decide
  · decide
  · decide

/-- C4 witness: the theorem applied at the spec's concrete geometry
(boundary `(0,0)-(479,383)`, 10 time divisions, 8 voltage divisions). -/
theorem Graticules.configure_geometry_witness :
    (Graticules.configure {} { x1 := 0, y1 := 0, x2 := 479, y2 := 383 }
        0 0 0 0 10 8 0 0).getStepSize .TIME = 48 ∧
    (Graticules.configure {} { x1 := 0, y1 := 0, x2 := 479, y2 := 383 }
        0 0 0 0 10 8 0 0).getLineSegment 9 .TIME
      = { x1 := 432, y1 := 0, x2 := 432, y2 := 383 } := by
  have h := Graticules.configure_geometry {}
    { x1 := 0, y1 := 0, x2 := 479, y2 := 383 } 0 0 0 0 10 8 0 0
    (by decide) (by decide) (by decide) (by decide) (by decide) (by decide)
  exact ⟨h.2.2.2.2.1, h.2.2.2.2.2.2.1⟩

/-- C9: safety of `Graticules::configure` under the documented
precondition `1 ≤ divisions ≤ MAX_GRATICULES` for both axes: the stored
division counts (the divisors used by `setStepSize`) are non-zero, and
every index written by the two `setLineSegments` loops lies inside the
20-element `Time`/`Voltage` arrays.  The engine itself checks neither
condition: configuring with 0 divisions stores the zero divisor
unchanged, and configuring with 21 divisions makes the write loop emit
the out-of-bounds index 20. -/
theorem Graticules.configure_safe (g : Graticules) (b : Boundary)
    (oc : Nat) (ot : Int) (gc : Nat) (gt : Int) (td vd xo yo : Int)
    (htd1 : 1 ≤ td) (htdM : td ≤ (MAX_GRATICULES : Int))
    (hvd1 : 1 ≤ vd) (hvdM : vd ≤ (MAX_GRATICULES : Int)) :
    ((Graticules.configure g b oc ot gc gt td vd xo yo).timeDivisions = td ∧ td ≠ 0) ∧
    ((Graticules.configure g b oc ot gc gt td vd xo yo).voltageDivisions = vd ∧ vd ≠ 0) ∧
    (∀ i ∈ (Graticules.configure g b oc ot gc gt td vd xo yo).timeWriteIndices,
      i < MAX_GRATICULES) ∧
    (∀ i ∈ (Graticules.configure g b oc ot gc gt td vd xo yo).voltageWriteIndices,
      i < MAX_GRATICULES) ∧
    ((Graticules.configure {} { x1 := 0, y1 := 0, x2 := 479, y2 := 383 }
        0 0 0 0 0 8 0 0).timeDivisions = 0 ∧
     20 ∈ (Graticules.configure {} { x1 := 0, y1 := 0, x2 := 479, y2 := 383 }
        0 0 0 0 21 21 0 0).timeWriteIndices) := by
  obtain ⟨hb, htd2, hvd2, hts, hvs⟩ := configure_fields g b oc ot gc gt td vd xo yo
  refine ⟨⟨htd2, by omega⟩, ⟨hvd2, by omega⟩, ?_, ?_, by decide, by decide⟩
  · intro i hi
    rw [Graticules.timeWriteIndices, htd2] at hi
    have hi2 := List.mem_range.mp hi
    have hM : (MAX_GRATICULES : Int) = 20 := by simp [MAX_GRATICULES]
    have hM2 : MAX_GRATICULES = 20 := rfl
    omega
  · intro i hi
    rw [Graticules.voltageWriteIndices, hvd2] at hi
    have hi2 := List.mem_range.mp hi
    have hM : (MAX_GRATICULES : Int) = 20 := by simp [MAX_GRATICULES]
    have hM2 : MAX_GRATICULES = 20 := rfl
    omega

/-- C9 witness: the safety theorem applied at the concrete geometry with
10 and 8 divisions — the stored time divisor is the non-zero 10, and the
write index 9 produced by the time loop is inside the 20-element array. -/
theorem Graticules.configure_safe_witness :
    ((Graticules.configure {} { x1 := 0, y1 := 0, x2 := 479, y2 := 383 }
        0 0 0 0 10 8 0 0).timeDivisions = 10 ∧ (10 : Int) ≠ 0) ∧
    9 < MAX_GRATICULES :=
  ⟨(Graticules.configure_safe {} { x1 := 0, y1 := 0, x2 := 479, y2 := 383 }
      0 0 0 0 10 8 0 0 (by decide) (by decide) (by decide) (by decide)).1,
   (Graticules.configure_safe {} { x1 := 0, y1 := 0, x2 := 479, y2 := 383 }
      0 0 0 0 10 8 0 0 (by decide) (by decide) (by decide) (by decide)).2.2.1
     9 (by decide)⟩

/-- C6 (amended): the bounds check of `Graticules::getLineSegment`
compares the index against the division count converted to `uint8_t`.
For a non-negative division count within the array capacity the
conversion is the identity, and the claimed behaviour holds: an index
that is negative or at least the division count yields the all-zero
segment, and an in-range index yields a copy of the stored segment, with
no error signalled either way.  (A negative division count wraps to
`256 + count`, which is what the counterexample exploits.) -/
theorem Graticules.getLineSegment_bounds (g : Graticules) (idx : Int)
    (axis : AxisType) (h0 : 0 ≤ g.getDivisions axis)
    (hM : g.getDivisions axis ≤ (MAX_GRATICULES : Int)) :
    ((idx < 0 ∨ g.getDivisions axis ≤ idx) →
      g.getLineSegment idx axis = { x1 := 0, y1 := 0, x2 := 0, y2 := 0 }) ∧
    (0 ≤ idx → idx < g.getDivisions axis →
      g.getLineSegment idx axis =
        { x1 := (Graticules.storedSegment g axis idx.toNat).x1
          y1 := (Graticules.storedSegment g axis idx.toNat).y1
          x2 := (Graticules.storedSegment g axis idx.toNat).x2
          y2 := (Graticules.storedSegment g axis idx.toNat).y2 }) := by
  have hMn : (MAX_GRATICULES : Int) = 20 := by simp [MAX_GRATICULES]
  cases axis with
  | TIME =>
    simp only [Graticules.getDivisions] at h0 hM
    have hmod : g.timeDivisions % 256 = g.timeDivisions :=
      Int.emod_eq_of_lt h0 (by omega)
    constructor
    · intro hout
      simp only [Graticules.getDivisions] at hout
      have hvalid : g.isValidIndex idx .TIME = false := by
        simp only [Graticules.isValidIndex]
        rw [hmod]
        simp only [decide_eq_false_iff_not]
        rintro ⟨hge, hlt⟩
        rcases hout with h | h <;> omega
      simp [Graticules.getLineSegment, hvalid]
    · intro hge hlt
      simp only [Graticules.getDivisions] at hlt
      have hvalid : g.isValidIndex idx .TIME = true := by
        simp only [Graticules.isValidIndex]
        rw [hmod]
        simp only [decide_eq_true_eq]
        exact ⟨hge, hlt⟩
      simp [Graticules.getLineSegment, hvalid, Graticules.storedSegment]
  | VOLTAGE =>
    simp only [Graticules.getDivisions] at h0 hM
    have hmod : g.voltageDivisions % 256 = g.voltageDivisions :=
      Int.emod_eq_of_lt h0 (by omega)
    constructor
    · intro hout
      simp only [Graticules.getDivisions] at hout
      have hvalid : g.isValidIndex idx .VOLTAGE = false := by
        simp only [Graticules.isValidIndex]
        rw [hmod]
        simp only [decide_eq_false_iff_not]
        rintro ⟨hge, hlt⟩
        rcases hout with h | h <;> omega
      simp [Graticules.getLineSegment, hvalid]
    · intro hge hlt
      simp only [Graticules.getDivisions] at hlt
      have hvalid : g.isValidIndex idx .VOLTAGE = true := by
        simp only [Graticules.isValidIndex]
        rw [hmod]
        simp only [decide_eq_true_eq]
        exact ⟨hge, hlt⟩
      simp [Graticules.getLineSegment, hvalid, Graticules.storedSegment]

/-- C6 counterexample: configure once with 1 voltage division (writing a
non-zero segment at `Voltage[0]`), then reconfigure with voltage division
count `-1`.  The claim demands the all-zero segment for index `0` (since
`0 ≥ -1`, the index is at least the division count of that axis), but the
`uint8_t` conversion turns `-1` into 255, the bounds check passes, and
the stale stored segment `(0,0)-(479,0)` is returned. -/
theorem Graticules.getLineSegment_negative_divisions_cex :
    (Graticules.configure
        (Graticules.configure {} { x1 := 0, y1 := 0, x2 := 479, y2 := 383 }
          0 0 0 0 10 1 0 0)
        { x1 := 0, y1 := 0, x2 := 479, y2 := 383 }
        0 0 0 0 10 (-1) 0 0).getDivisions .VOLTAGE = -1 ∧
    (Graticules.configure
        (Graticules.configure {} { x1 := 0, y1 := 0, x2 := 479, y2 := 383 }
          0 0 0 0 10 1 0 0)
        { x1 := 0, y1 := 0, x2 := 479, y2 := 383 }
        0 0 0 0 10 (-1) 0 0).getLineSegment 0 .VOLTAGE
      = { x1 := 0, y1 := 0, x2 := 479, y2 := 0 } := by
  constructor <;> decide

/-- C6 witness: the amended theorem applied at the concretely configured
grid (10 time divisions): index 10 is out of range and yields the
all-zero segment. -/
theorem Graticules.getLineSegment_bounds_witness :
    (Graticules.configure {} { x1 := 0, y1 := 0, x2 := 479, y2 := 383 }
        0 0 0 0 10 8 0 0).getLineSegment 10 .TIME
      = { x1 := 0, y1 := 0, x2 := 0, y2 := 0 } :=
  (Graticules.getLineSegment_bounds
    (Graticules.configure {} { x1 := 0, y1 := 0, x2 := 479, y2 := 383 }
      0 0 0 0 10 8 0 0) 10 .TIME (by decide) (by decide)).1 (Or.inr (by decide))

/-- C3 counterexample: error states are not terminal.  A `Screen` that
entered `ERROR_SERVICES` via `setServices` with a null pool re-enters
`SERVICES_SET` when `setServices` is called again with non-null services
(the method recomputes the state without consulting the current one),
and a `WidgetBuilder` in `ERROR_SERVICES` transitions to `ERROR_BUILDING`
when `setWidgets` is called (its `default` arm overwrites the state). -/
theorem StateMachines.error_state_not_terminal_cex :
    (ScreenM.setServices {} (some []) none).state = ScreenState.ERROR_SERVICES ∧
    (ScreenM.setServices (ScreenM.setServices {} (some []) none)
        (some []) (some ())).state = ScreenState.SERVICES_SET ∧
    (WidgetBuilderM.setServices {} none none).state = BuilderState.ERROR_SERVICES ∧
    (WidgetBuilderM.setWidgets (WidgetBuilderM.setServices {} none none)).state
        = BuilderState.ERROR_BUILDING :=
  ⟨rfl, rfl, rfl, rfl⟩

/-- C3 (amended): the machines do not guard their operations on the
current state, so `Error*` states are terminal only under the
orchestrator protocol of `main.cpp`, which stops invoking operations once
it observes an error state.  Within the machines themselves:
`WidgetBuilder::setWidgets` leaves `ERROR_BUILDING` and `COMPLETE`
unchanged but maps `ERROR_SERVICES` to `ERROR_BUILDING`; `setServices`
recomputes the state from its arguments alone on both machines (so a
machine in `ERROR_SERVICES` re-enters `SERVICES_SET` when called again
with non-null services); and `Screen::drawWidgets` sets `COMPLETE` from
any state. -/
theorem StateMachines.error_states_unguarded :
    (∀ b : WidgetBuilderM, b.state = BuilderState.ERROR_BUILDING →
        WidgetBuilderM.setWidgets b = b) ∧
    (∀ b : WidgetBuilderM, b.state = BuilderState.COMPLETE →
        WidgetBuilderM.setWidgets b = b) ∧
    (∀ b : WidgetBuilderM, b.state = BuilderState.ERROR_SERVICES →
        (WidgetBuilderM.setWidgets b).state = BuilderState.ERROR_BUILDING) ∧
    (∀ (s : ScreenM) (r : Option (List (WidgetType × Option Attributes)))
        (p : Option Unit),
      (ScreenM.setServices s r p).state =
        if r.isSome && p.isSome then ScreenState.SERVICES_SET
        else ScreenState.ERROR_SERVICES) ∧
    (∀ (b : WidgetBuilderM)
        (r : Option (List (WidgetType × Option Attributes)))
        (p : Option (WidgetType → Option Graticules)),
      (WidgetBuilderM.setServices b r p).state =
        if r.isSome && p.isSome then BuilderState.SERVICES_SET
        else BuilderState.ERROR_SERVICES) ∧
    (∀ s : ScreenM, (ScreenM.drawWidgets s).state = ScreenState.COMPLETE) := by
  refine ⟨?_, ?_, ?_, fun s r p => rfl, fun b r p => rfl, fun s => rfl⟩
  · rintro ⟨st, reg, pool⟩ hb
    have hb2 : st = BuilderState.ERROR_BUILDING := hb
    subst hb2
    rfl
  · rintro ⟨st, reg, pool⟩ hb
    have hb2 : st = BuilderState.COMPLETE := hb
    subst hb2
    rfl
  · rintro ⟨st, reg, pool⟩ hb
    have hb2 : st = BuilderState.ERROR_SERVICES := hb
    subst hb2
    rfl

/-- C3 witness: the amended theorem applied at concrete machines — a
builder stuck in `ERROR_BUILDING` stays there under `setWidgets`, and a
screen in `ERROR_SERVICES` re-enters `SERVICES_SET` when `setServices` is
repeated with non-null services. -/
theorem StateMachines.error_states_unguarded_witness :
    WidgetBuilderM.setWidgets { state := BuilderState.ERROR_BUILDING }
      = { state := BuilderState.ERROR_BUILDING } ∧
    (ScreenM.setServices { state := ScreenState.ERROR_SERVICES }
        (some []) (some ())).state = ScreenState.SERVICES_SET :=
  ⟨StateMachines.error_states_unguarded.1 { state := BuilderState.ERROR_BUILDING } rfl,
   (StateMachines.error_states_unguarded.2.2.2.1
      { state := ScreenState.ERROR_SERVICES } (some []) (some ())).trans rfl⟩

theorem list_all_congr {α : Type} (p q : α → Bool) :
    ∀ l : List α, (∀ x ∈ l, p x = q x) → l.all p = l.all q := by
  intro l
  induction l with
  | nil => intro _; rfl
  | cons y ys ih =>
    intro h
    have hy := h y (List.mem_cons_self y ys)
    have hys := ih (fun z hz => h z (List.mem_cons_of_mem y hz))
    simp only [List.all_cons, hy, hys]

theorem setAttributeGo_spec (pool : WidgetType → Option Graticules)
    (entries : List (WidgetType × Option Attributes)) :
    (setAttributeGo pool entries).2 =
      if entries.all (fun e => e.2.isSome && (pool e.1).isSome) then
        BuilderState.COMPLETE
      else BuilderState.ERROR_BUILDING := by
  induction entries generalizing pool with
  | nil => simp [setAttributeGo]
  | cons e rest ih =>
    obtain ⟨t, a⟩ := e
    cases a with
    | none => simp [setAttributeGo]
    | some attrs =>
      cases hp : pool t with
      | none => simp [setAttributeGo, hp]
      | some w =>
        cases t with
        | GRAPH =>
          have hcong : ∀ w2 : Graticules,
              rest.all (fun e => e.2.isSome && ((updPool pool .GRAPH w2) e.1).isSome)
                = rest.all (fun e => e.2.isSome && (pool e.1).isSome) := by
            intro w2
            apply list_all_congr
            intro x hx
            by_cases hxg : x.1 = WidgetType.GRAPH
            · simp [updPool, hxg, hp]
            · simp [updPool, hxg]
          simp only [setAttributeGo, hp]
          rw [ih, hcong]
          simp only [List.all_cons, hp, Option.isSome_some, Bool.true_and]
        | LABEL =>
          simp only [setAttributeGo, hp]
          rw [ih]
          simp only [List.all_cons, hp, Option.isSome_some, Bool.true_and]
        | DEFAULT =>
          simp only [setAttributeGo, hp]
          rw [ih]
          simp only [List.all_cons, hp, Option.isSome_some, Bool.true_and]

theorem setAttributeGo_pool_no_graph (pool : WidgetType → Option Graticules)
    (entries : List (WidgetType × Option Attributes))
    (h : ∀ e ∈ entries, e.1 ≠ WidgetType.GRAPH) :
    (setAttributeGo pool entries).1 = pool := by
  induction entries generalizing pool with
  | nil => rfl
  | cons e rest ih =>
    obtain ⟨t, a⟩ := e
    have ht : t ≠ WidgetType.GRAPH := h (t, a) (by simp)
    cases a with
    | none => rfl
    | some attrs =>
      cases hp : pool t with
      | none => simp [setAttributeGo, hp]
      | some w =>
        cases t with
        | GRAPH => exact absurd rfl ht
        | LABEL =>
          simp only [setAttributeGo, hp]
          exact ih pool (fun x hx => h x (by simp [hx]))
        | DEFAULT =>
          simp only [setAttributeGo, hp]
          exact ih pool (fun x hx => h x (by simp [hx]))

/-- C8: outcome of the build loop run from `SERVICES_SET` with non-null
services.  The loop visits the registry entries in order; it ends in
`ERROR_BUILDING` exactly when some entry has a missing (null) attribute
record or a missing matching pool instance, and in `COMPLETE` otherwise.
Entries whose type has no handler (any type other than `GRAPH`) are
silently skipped: if no entry is of type `GRAPH`, the pool is left
completely unchanged and no error results. -/
theorem WidgetBuilder.setWidgets_outcome (b : WidgetBuilderM)
    (entries : List (WidgetType × Option Attributes))
    (pool : WidgetType → Option Graticules)
    (hstate : b.state = BuilderState.SERVICES_SET)
    (hreg : b.widgetRegistry = some entries)
    (hpool : b.widgetPool = some pool) :
    ((WidgetBuilderM.setWidgets b).state =
      if entries.all (fun e => e.2.isSome && (pool e.1).isSome) then
        BuilderState.COMPLETE
      else BuilderState.ERROR_BUILDING) ∧
    ((∀ e ∈ entries, e.1 ≠ WidgetType.GRAPH) →
      (WidgetBuilderM.setWidgets b).widgetPool = some pool) := by
  obtain ⟨st, reg, poolOpt⟩ := b
  have hst : st = BuilderState.SERVICES_SET := hstate
  have hrg : reg = some entries := hreg
  have hpl : poolOpt = some pool := hpool
  subst hst hrg hpl
  constructor
  · simpa [WidgetBuilderM.setWidgets, WidgetBuilderM.setAttribute]
      using setAttributeGo_spec pool entries
  · intro hng
    simp [WidgetBuilderM.setWidgets, WidgetBuilderM.setAttribute,
      setAttributeGo_pool_no_graph pool entries hng]

/-- C8 witness: a builder whose registry holds a `LABEL` entry and a
`GRAPH` entry, both with attribute records, over a pool answering every
type: the build ends `COMPLETE`; and with an empty registry the pool is
untouched. -/
theorem WidgetBuilder.setWidgets_outcome_witness :
    (WidgetBuilderM.setWidgets
      (WidgetBuilderM.setServices {}
        (some [(WidgetType.LABEL, some {}), (WidgetType.GRAPH, some {})])
        (some (fun _ => some {})))).state = BuilderState.COMPLETE ∧
    (WidgetBuilderM.setWidgets
      (WidgetBuilderM.setServices {} (some [])
        (some (fun _ => some {})))).widgetPool = some (fun _ => some {}) := by
  constructor
  · have h := WidgetBuilder.setWidgets_outcome
      (WidgetBuilderM.setServices {}
        (some [(WidgetType.LABEL, some {}), (WidgetType.GRAPH, some {})])
        (some (fun _ => some {})))
      [(WidgetType.LABEL, some {}), (WidgetType.GRAPH, some {})]
      (fun _ => some {}) rfl rfl rfl
    rw [h.1]
    rfl
  · have h := WidgetBuilder.setWidgets_outcome
      (WidgetBuilderM.setServices {} (some []) (some (fun _ => some {})))
      [] (fun _ => some {}) rfl rfl rfl
    exact h.2 (by simp)
